import Mathlib

/-!
# TalentBook login page script (`wwwroot/js/login.js`)

A shallow embedding of the script's pure helpers (`isValidEmail`,
`validatePasswordStrength`, the password mask of the completion message) and of
its event handlers (form submit, remember-me, key-down), followed by the
properties proved about them.

JavaScript strings are sequences of UTF-16 code units, and the regular
expressions of the script carry no `u` flag, so they match code unit by code
unit.  A string is therefore modelled as the list of its code units.
-/

namespace LoginPage

/-! ## Strings -/

/-- A JavaScript string: the list of its UTF-16 code units. -/
abbrev JSString := List Nat

/-- UTF-16 encoding of one Unicode scalar value. -/
def codeUnits (c : Char) : List Nat :=
  if c.toNat < 65536 then [c.toNat]
  else [55296 + (c.toNat - 65536) / 1024, 56320 + (c.toNat - 65536) % 1024]

/-- The JavaScript string written by a literal of the source. -/
def js (s : String) : JSString := s.toList.flatMap codeUnits

/-! ## Regular expressions

Only the constructs that occur in the script are embedded: literal characters,
`.`, `\d`, bracketed classes (possibly negated) whose members are characters,
ranges, `\s` and `\d`, the quantifier `+`, and the anchors `^` and `$`.
-/

/-- ECMAScript `LineTerminator`: LF, CR, LINE SEPARATOR, PARAGRAPH SEPARATOR. -/
def isLineTerminator (c : Nat) : Bool :=
  c == 0x000A || c == 0x000D || c == 0x2028 || c == 0x2029

/-- The class `\s`: ECMAScript `WhiteSpace` (TAB, VT, FF, SP, NBSP, ZWNBSP and
the Unicode space separators) together with `LineTerminator`. -/
def isWhiteSpace (c : Nat) : Bool :=
  c == 0x0009 || c == 0x000B || c == 0x000C || c == 0x0020 || c == 0x00A0 ||
  c == 0xFEFF || c == 0x1680 || (0x2000 ≤ c && c ≤ 0x200A) || c == 0x202F ||
  c == 0x205F || c == 0x3000 || isLineTerminator c

/-- The class `\d`: the ten ASCII digits. -/
def isDigit (c : Nat) : Bool := 0x30 ≤ c && c ≤ 0x39

/-- A member of a bracketed character class. -/
inductive ClassItem where
  | ch (c : Nat)
  | range (lo hi : Nat)
  | space
  | digit
  deriving Repr, DecidableEq

/-- Whether the code unit belongs to the class member. -/
def ClassItem.test : ClassItem → Nat → Bool
  | .ch c, x => x == c
  | .range lo hi, x => lo ≤ x && x ≤ hi
  | .space, x => isWhiteSpace x
  | .digit, x => isDigit x

/-- A pattern term that consumes exactly one code unit. -/
inductive Atom where
  | lit (c : Nat)
  | dot
  | digit
  | cls (items : List ClassItem)
  | ncls (items : List ClassItem)
  deriving Repr, DecidableEq

/-- Whether the atom matches the code unit. -/
def Atom.test : Atom → Nat → Bool
  | .lit c, x => x == c
  | .dot, x => !isLineTerminator x
  | .digit, x => isDigit x
  | .cls items, x => items.any fun i => i.test x
  | .ncls items, x => !(items.any fun i => i.test x)

/-- Quantifier of a term: exactly once, or `+`. -/
inductive Quant where
  | one
  | plus
  deriving Repr, DecidableEq

/-- A regular expression: optional `^`, a sequence of quantified atoms,
optional `$`. -/
structure RegExp where
  anchorStart : Bool
  items : List (Atom × Quant)
  anchorEnd : Bool

/-- Backtracking match of the term sequence at the start of `s`; with
`atEnd` the match must reach the end of the input. -/
def matchHere (atEnd : Bool) : List (Atom × Quant) → JSString → Bool
  | [], s => !atEnd || s.isEmpty
  | (_, .one) :: _, [] => false
  | (a, .one) :: rest, c :: s => a.test c && matchHere atEnd rest s
  | (_, .plus) :: _, [] => false
  | (a, .plus) :: rest, c :: s =>
      a.test c && (matchHere atEnd ((a, .plus) :: rest) s || matchHere atEnd rest s)

/-- Try the match at every start position, leftmost first. -/
def searchFrom (atEnd : Bool) (items : List (Atom × Quant)) : JSString → Bool
  | [] => matchHere atEnd items []
  | c :: s => matchHere atEnd items (c :: s) || searchFrom atEnd items s

/-- The method `RegExp.prototype.test` for a regular expression without the
`g` and `y` flags. -/
def RegExp.test (r : RegExp) (s : JSString) : Bool :=
  if r.anchorStart then matchHere r.anchorEnd r.items s
  else searchFrom r.anchorEnd r.items s

/-- The call `s.replace(/a/g, repl)` for a one-atom pattern `a`: every code
unit matched by the atom is replaced, every other one is kept. -/
def replaceEach (a : Atom) (repl : JSString) : JSString → JSString
  | [] => []
  | c :: s => (if a.test c then repl else [c]) ++ replaceEach a repl s

/-! ## `isValidEmail` -/

/-- The class `[^\s@]`. -/
def notSpaceNorAt : Atom := .ncls [.space, .ch 0x40]

/-- The pattern `/^[^\s@]+@[^\s@]+\.[^\s@]+$/`. -/
def emailRegex : RegExp :=
  { anchorStart := true
    items := [(notSpaceNorAt, .plus), (.lit 0x40, .one), (notSpaceNorAt, .plus),
              (.lit 0x2E, .one), (notSpaceNorAt, .plus)]
    anchorEnd := true }

/-- Validate email format. -/
def isValidEmail (email : JSString) : Bool := emailRegex.test email

/-! ## `validatePasswordStrength` -/

/-- The object returned by `validatePasswordStrength`. -/
structure PasswordStrengthResult where
  isValid : Bool
  message : JSString
  deriving Repr, DecidableEq

/-- The pattern `/[A-Z]/`. -/
def upperCaseRegex : RegExp :=
  { anchorStart := false, items := [(.cls [.range 0x41 0x5A], .one)], anchorEnd := false }

/-- The pattern `/[a-z]/`. -/
def lowerCaseRegex : RegExp :=
  { anchorStart := false, items := [(.cls [.range 0x61 0x7A], .one)], anchorEnd := false }

/-- The pattern `/\d/`. -/
def numbersRegex : RegExp :=
  { anchorStart := false, items := [(.digit, .one)], anchorEnd := false }

/-- The class `[!@#$%^&*(),.?":{}|<>]`, member by member in source order. -/
def specialCharClass : Atom :=
  .cls [.ch 0x21, .ch 0x40, .ch 0x23, .ch 0x24, .ch 0x25, .ch 0x5E, .ch 0x26, .ch 0x2A,
        .ch 0x28, .ch 0x29, .ch 0x2C, .ch 0x2E, .ch 0x3F, .ch 0x22, .ch 0x3A, .ch 0x7B,
        .ch 0x7D, .ch 0x7C, .ch 0x3C, .ch 0x3E]

/-- The pattern `/[!@#$%^&*(),.?":{}|<>]/`. -/
def specialCharRegex : RegExp :=
  { anchorStart := false, items := [(specialCharClass, .one)], anchorEnd := false }

/-- Validate password strength. -/
def validatePasswordStrength (password : JSString) : PasswordStrengthResult :=
  let minLength := 8
  let hasUpperCase := upperCaseRegex.test password
  let hasLowerCase := lowerCaseRegex.test password
  let hasNumbers := numbersRegex.test password
  let hasSpecialChar := specialCharRegex.test password
  if password.length < minLength then
    { isValid := false
      message := js "Password must be at least " ++ js (toString minLength) ++ js " characters" }
  else if !hasUpperCase || !hasLowerCase then
    { isValid := false
      message := js "Password must contain both uppercase and lowercase letters" }
  else if !hasNumbers then
    { isValid := false, message := js "Password must contain at least one number" }
  else if !hasSpecialChar then
    { isValid := false, message := js "Password must contain at least one special character" }
  else
    { isValid := true, message := js "Password is strong" }

/-! ## Form submission -/

/-- The expression `password.replace(/./g, '*')` of the completion message. -/
def passwordMask (password : JSString) : JSString :=
  replaceEach .dot (js "*") password

/-- The text of the alert shown when the simulated call completes. -/
def completionMessage (email password : JSString) : JSString :=
  js "Login attempted with:\nEmail: " ++ email ++ js "\nPassword: " ++
    passwordMask password ++
    js "\n\nThis is a demo. Implement actual authentication here."

/-- The submit control `.btn-primary`: its class list (an ordered set of
tokens) and its text. -/
structure Button where
  classList : List JSString
  textContent : JSString
  deriving Repr, DecidableEq

/-- The method `classList.add`: the token is appended unless already present. -/
def classListAdd (token : JSString) (l : List JSString) : List JSString :=
  if token ∈ l then l else l ++ [token]

/-- The method `classList.remove`. -/
def classListRemove (token : JSString) (l : List JSString) : List JSString :=
  l.filter fun t => t != token

/-- A pending `setTimeout` of the submit handler: the delay in milliseconds and
the `email` and `password` captured by the callback. -/
structure SubmitTimer where
  delay : Nat
  email : JSString
  password : JSString
  deriving Repr, DecidableEq

/-- What the submit handler and its timer callback read and write: the submit
button, the messages shown by `alert` so far (oldest first) and the pending
timers (oldest first).  The page is one on which the form holds a
`.btn-primary` control and the `email` and `password` inputs exist. -/
structure Page where
  btn : Button
  alerts : List JSString
  timers : List SubmitTimer
  deriving Repr, DecidableEq

/-- The part of a DOM event the handlers touch. -/
structure DomEvent where
  defaultPrevented : Bool
  deriving Repr, DecidableEq

/-- The `submit` listener of `loginForm`, run with the values of the `email`
and `password` inputs at submit time. -/
def submitHandler (e : DomEvent) (email password : JSString) (pg : Page) : DomEvent × Page :=
  let e := { e with defaultPrevented := true }
  if email.isEmpty || password.isEmpty then
    (e, { pg with alerts := pg.alerts ++ [js "Please fill in all fields"] })
  else if !isValidEmail email then
    (e, { pg with alerts := pg.alerts ++ [js "Please enter a valid email address"] })
  else
    (e, { pg with
            btn := { classList := classListAdd (js "loading") pg.btn.classList
                     textContent := js "" }
            timers := pg.timers ++ [{ delay := 2000, email := email, password := password }] })

/-- The callback passed to `setTimeout` by the submit handler. -/
def submitTimeout (t : SubmitTimer) (pg : Page) : Page :=
  { pg with
      btn := { classList := classListRemove (js "loading") pg.btn.classList
               textContent := js "Sign in" }
      alerts := pg.alerts ++ [completionMessage t.email t.password] }

/-- The button shows the loading state: it carries the class `loading`. -/
def isLoading (b : Button) : Bool := b.classList.contains (js "loading")

/-- What can happen to the submit button: a submit event with the field values
of that moment, or the expiry of the pending timer at an index. -/
inductive Action where
  | submit (email password : JSString)
  | timerFires (index : Nat)
  deriving Repr, DecidableEq

/-- One step of the page; the expiry of a timer that is not pending is no step. -/
def step (pg : Page) : Action → Page
  | .submit email password => (submitHandler { defaultPrevented := false } email password pg).2
  | .timerFires i =>
      match pg.timers[i]? with
      | some t => submitTimeout t { pg with timers := pg.timers.eraseIdx i }
      | none => pg

/-- The page after a sequence of actions. -/
def run (pg : Page) (actions : List Action) : Page := actions.foldl step pg

/-- The page as first rendered: the button idle with its label, nothing shown,
nothing pending. -/
def initialPage : Page :=
  { btn := { classList := [js "btn", js "btn-primary"], textContent := js "Sign in" }
    alerts := []
    timers := [] }

/-! ## Remember me -/

/-- The browser's `localStorage`: key/value pairs with distinct keys. -/
abbrev Storage := List (JSString × JSString)

/-- The method `localStorage.getItem`; `none` stands for `null`. -/
def getItem (key : JSString) : Storage → Option JSString
  | [] => none
  | (k, v) :: rest => if k == key then some v else getItem key rest

/-- The method `localStorage.removeItem`. -/
def removeItem (key : JSString) (st : Storage) : Storage :=
  st.filter fun kv => kv.1 != key

/-- The method `localStorage.setItem`: an existing key keeps its place and
takes the new value, a new key is appended. -/
def setItem (key value : JSString) : Storage → Storage
  | [] => [(key, value)]
  | (k, v) :: rest => if k == key then (k, value) :: rest else (k, v) :: setItem key value rest

/-- What the remember-me code reads and writes: the storage, the value of the
`email` input and the `checked` flag of the `remember` checkbox. -/
structure RememberState where
  storage : Storage
  emailValue : JSString
  checked : Bool
  deriving Repr, DecidableEq

/-- The key `'rememberedEmail'`. -/
def rememberedEmailKey : JSString := js "rememberedEmail"

/-- The page-load step: a saved, non-empty email is put in the field and the
checkbox is ticked. -/
def loadRemembered (st : RememberState) : RememberState :=
  match getItem rememberedEmailKey st.storage with
  | some savedEmail =>
      if !savedEmail.isEmpty then { st with emailValue := savedEmail, checked := true } else st
  | none => st

/-- The `change` listener of the `remember` checkbox. -/
def rememberChange (st : RememberState) : RememberState :=
  if st.checked && !st.emailValue.isEmpty then
    { st with storage := setItem rememberedEmailKey st.emailValue st.storage }
  else
    { st with storage := removeItem rememberedEmailKey st.storage }

/-- A page that has just been rendered over the given storage: empty email
field, checkbox not ticked. -/
def freshPage (storage : Storage) : RememberState :=
  { storage := storage, emailValue := [], checked := false }

/-- A sequence of `change` events; before each one the user has left the
checkbox and the email field in the given state. -/
def runChanges (st : RememberState) : List (Bool × JSString) → RememberState
  | [] => st
  | (checked, email) :: rest =>
      runChanges (rememberChange { st with emailValue := email, checked := checked }) rest

/-! ## Keyboard shortcut -/

/-- A key-down event: the `key` and whether the default action is cancelled. -/
structure KeyEvent where
  key : JSString
  defaultPrevented : Bool
  deriving Repr, DecidableEq

/-- The `keydown` listener of the document, run while the element with id
`activeId` has focus; returns the event and the id of the element that has
focus afterwards. -/
def keydownHandler (e : KeyEvent) (activeId : JSString) : KeyEvent × JSString :=
  if e.key == js "Enter" && activeId == js "email" then
    ({ e with defaultPrevented := true }, js "password")
  else
    (e, activeId)

/-! ## Predicates used in the statements -/

/-- The strings matched by a term sequence, stated without backtracking. -/
def Denotes (atEnd : Bool) : List (Atom × Quant) → JSString → Prop
  | [], s => atEnd = true → s = []
  | (a, .one) :: rest, s => ∃ c t, s = c :: t ∧ a.test c = true ∧ Denotes atEnd rest t
  | (a, .plus) :: rest, s =>
      ∃ u t, s = u ++ t ∧ u ≠ [] ∧ (∀ x ∈ u, a.test x = true) ∧ Denotes atEnd rest t

/-- The code units of a piece are all outside `\s` and different from `@`. -/
def Plain (u : JSString) : Prop := ∀ x ∈ u, isWhiteSpace x = false ∧ x ≠ 0x40

/-- A loading button has a pending timer. -/
def LoadingHasTimer (pg : Page) : Prop := isLoading pg.btn = true → 1 ≤ pg.timers.length

/-- The remembered email is absent or non-empty. -/
def StoredOk (storage : Storage) : Prop :=
  getItem rememberedEmailKey storage = none ∨
    ∃ v, getItem rememberedEmailKey storage = some v ∧ v ≠ []

/-! ## Denotation of term sequences -/

theorem matchHere_iff_denotes (atEnd : Bool) (s : JSString) :
    ∀ items, matchHere atEnd items s = true ↔ Denotes atEnd items s := by
  induction s with
  | nil =>
    intro items
    match items with
    | [] => cases atEnd <;> simp [matchHere, Denotes]
    | (a, .one) :: rest => simp [matchHere, Denotes]
    | (a, .plus) :: rest =>
      simp only [matchHere, Denotes]
      constructor
      · intro h; cases h
      · rintro ⟨u, t, h, hu, -, -⟩
        cases u with
        | nil => exact absurd rfl hu
        | cons x u => cases h
  | cons c s ih =>
    intro items
    match items with
    | [] => cases atEnd <;> simp [matchHere, Denotes]
    | (a, .one) :: rest =>
      simp only [matchHere, Denotes, Bool.and_eq_true, ih rest]
      constructor
      · rintro ⟨h1, h2⟩
        exact ⟨c, s, rfl, h1, h2⟩
      · rintro ⟨c', t, h, h1, h2⟩
        cases h
        exact ⟨h1, h2⟩
    | (a, .plus) :: rest =>
      simp only [matchHere, Bool.and_eq_true, Bool.or_eq_true, ih rest,
        ih ((a, .plus) :: rest)]
      simp only [Denotes]
      constructor
      · rintro ⟨h1, h2 | h2⟩
        · obtain ⟨u, t, h, -, hall, hd⟩ := h2
          refine ⟨c :: u, t, by simp [h], by simp, ?_, hd⟩
          intro x hx
          rcases List.mem_cons.1 hx with rfl | hx
          · exact h1
          · exact hall x hx
        · exact ⟨[c], s, rfl, by simp, by simpa using h1, h2⟩
      · rintro ⟨u, t, h, hu, hall, hd⟩
        cases u with
        | nil => exact absurd rfl hu
        | cons x u =>
          simp only [List.cons_append, List.cons.injEq] at h
          obtain ⟨rfl, rfl⟩ := h
          refine ⟨hall c (List.mem_cons_self _ _), ?_⟩
          cases u with
          | nil => exact Or.inr hd
          | cons y u =>
            exact Or.inl ⟨y :: u, t, rfl, by simp,
              fun z hz => hall z (List.mem_cons_of_mem _ hz), hd⟩

theorem notSpaceNorAt_test (x : Nat) :
    notSpaceNorAt.test x = true ↔ isWhiteSpace x = false ∧ x ≠ 0x40 := by
  simp [notSpaceNorAt, Atom.test, ClassItem.test]


/-! ## Email validation -/

theorem plain_iff_test (u : JSString) :
    (∀ x ∈ u, notSpaceNorAt.test x = true) ↔ Plain u := by
  unfold Plain
  constructor
  · intro h x hx
    exact (notSpaceNorAt_test x).1 (h x hx)
  · intro h x hx
    exact (notSpaceNorAt_test x).2 (h x hx)

theorem isValidEmail_split_aux (s : JSString) :
    isValidEmail s = true ↔
      ∃ a b c : JSString, s = a ++ [0x40] ++ b ++ [0x2E] ++ c ∧
        a ≠ [] ∧ b ≠ [] ∧ c ≠ [] ∧ Plain a ∧ Plain b ∧ Plain c := by
  unfold isValidEmail RegExp.test
  simp only [emailRegex, if_true]
  rw [matchHere_iff_denotes]
  simp only [Denotes, plain_iff_test]
  constructor
  · rintro ⟨a, t1, rfl, ha, pa, c1, t2, rfl, hc1, b, t3, rfl, hb, pb, c2, t4, rfl, hc2,
      c, t5, rfl, hc, pc, h5⟩
    have e1 : c1 = 0x40 := by simpa [Atom.test] using hc1
    have e2 : c2 = 0x2E := by simpa [Atom.test] using hc2
    have e5 : t5 = [] := by simpa using h5
    subst e1 e2 e5
    exact ⟨a, b, c, by simp, ha, hb, hc, pa, pb, pc⟩
  · rintro ⟨a, b, c, rfl, ha, hb, hc, pa, pb, pc⟩
    exact ⟨a, 0x40 :: (b ++ 0x2E :: c), by simp, ha, pa, 0x40, b ++ 0x2E :: c, rfl,
      by simp [Atom.test], b, 0x2E :: c, rfl, hb, pb, 0x2E, c, rfl, by simp [Atom.test],
      c, [], by simp, hc, pc, fun _ => rfl⟩

/-- C1: `isValidEmail s` is true exactly when `s` splits as
`a ++ "@" ++ b ++ "." ++ c` with `a`, `b` and `c` non-empty and free of
whitespace and of `@`. -/
theorem isValidEmail_iff_split (s : JSString) :
    isValidEmail s = true ↔
      ∃ a b c : JSString, s = a ++ [0x40] ++ b ++ [0x2E] ++ c ∧
        a ≠ [] ∧ b ≠ [] ∧ c ≠ [] ∧ Plain a ∧ Plain b ∧ Plain c :=
  isValidEmail_split_aux s

theorem get_length_append (u v : JSString) (x : Nat) :
    (u ++ x :: v).get? u.length = some x := by
  induction u with
  | nil => rfl
  | cons y u ih => simpa using ih

/-- C2: a string without `@`, or without a `.` at a position after an `@`, is
rejected by `isValidEmail`. -/
theorem isValidEmail_false_of_missing (s : JSString)
    (h : 0x40 ∉ s ∨ ¬ ∃ i j, i < j ∧ s.get? i = some 0x40 ∧ s.get? j = some 0x2E) :
    isValidEmail s = false := by
  cases hv : isValidEmail s with
  | false => rfl
  | true =>
    exfalso
    obtain ⟨a, b, c, rfl, -, -, -, -, -, -⟩ := (isValidEmail_split_aux s).1 hv
    rcases h with h | h
    · exact h (by simp)
    · apply h
      refine ⟨a.length, (a ++ [0x40] ++ b).length, by simp, ?_, ?_⟩
      · have e : a ++ [0x40] ++ b ++ [0x2E] ++ c = a ++ 0x40 :: (b ++ 0x2E :: c) := by simp
        rw [e]
        exact get_length_append a _ _
      · have e : a ++ [0x40] ++ b ++ [0x2E] ++ c = (a ++ [0x40] ++ b) ++ 0x2E :: c := by simp
        rw [e]
        exact get_length_append _ _ _

theorem isValidEmail_false_of_missing_witness :
    (0x40 ∉ js "user.example.com" ∨
      ¬ ∃ i j, i < j ∧ (js "user.example.com").get? i = some 0x40 ∧
        (js "user.example.com").get? j = some 0x2E) ∧
    isValidEmail (js "user.example.com") = false :=
  ⟨Or.inl (by decide), isValidEmail_false_of_missing _ (Or.inl (by decide))⟩

/-! ## Password mask -/

theorem passwordMask_eq_map (p : JSString) :
    passwordMask p = p.map fun c => if isLineTerminator c then c else 0x2A := by
  unfold passwordMask
  have hstar : js "*" = [0x2A] := by decide
  rw [hstar]
  induction p with
  | nil => rfl
  | cons c p ih =>
    cases hc : isLineTerminator c <;> simp [replaceEach, Atom.test, hc, ih]

theorem passwordMask_length (p : JSString) : (passwordMask p).length = p.length := by
  rw [passwordMask_eq_map, List.length_map]

theorem passwordMask_of_no_lineTerminator (p : JSString)
    (h : ∀ c ∈ p, isLineTerminator c = false) :
    passwordMask p = List.replicate p.length 0x2A := by
  rw [passwordMask_eq_map]
  induction p with
  | nil => rfl
  | cons c p ih =>
    have hc : isLineTerminator c = false := h c (List.mem_cons_self _ _)
    have hp : ∀ d ∈ p, isLineTerminator d = false := fun d hd => h d (List.mem_cons_of_mem _ hd)
    simp [hc, List.replicate_succ, ih hp]

/-- C3: at the three-unit password `a`, LINE SEPARATOR, `b` the mask
`password.replace(/./g, '*')` keeps the separator, so it is not the string of
three asterisks. -/
theorem passwordMask_keeps_line_separator :
    passwordMask [0x61, 0x2028, 0x62] = [0x2A, 0x2028, 0x2A] ∧
      passwordMask [0x61, 0x2028, 0x62] ≠ List.replicate 3 0x2A := by
  decide

/-! ## Password strength -/

theorem test_single_atom (a : Atom) (s : JSString) :
    RegExp.test { anchorStart := false, items := [(a, .one)], anchorEnd := false } s =
      s.any a.test := by
  simp only [RegExp.test, Bool.false_eq_true, if_false]
  induction s with
  | nil => rfl
  | cons c s ih => simp [searchFrom, matchHere, ih]

theorem upperCase_test_iff (p : JSString) :
    upperCaseRegex.test p = true ↔ ∃ c ∈ p, 0x41 ≤ c ∧ c ≤ 0x5A := by
  simp [upperCaseRegex, test_single_atom, Atom.test, ClassItem.test]

theorem lowerCase_test_iff (p : JSString) :
    lowerCaseRegex.test p = true ↔ ∃ c ∈ p, 0x61 ≤ c ∧ c ≤ 0x7A := by
  simp [lowerCaseRegex, test_single_atom, Atom.test, ClassItem.test]

theorem numbers_test_iff (p : JSString) :
    numbersRegex.test p = true ↔ ∃ c ∈ p, 0x30 ≤ c ∧ c ≤ 0x39 := by
  simp [numbersRegex, test_single_atom, Atom.test, isDigit]

theorem specialChar_test_iff (p : JSString) :
    specialCharRegex.test p = true ↔ ∃ c ∈ p, c ∈ js "!@#$%^&*(),.?\":\x7b\x7d|<>" := by
  have hs : js "!@#$%^&*(),.?\":\x7b\x7d|<>" =
      [0x21, 0x40, 0x23, 0x24, 0x25, 0x5E, 0x26, 0x2A, 0x28, 0x29, 0x2C, 0x2E, 0x3F, 0x22,
        0x3A, 0x7B, 0x7D, 0x7C, 0x3C, 0x3E] := by decide
  rw [hs]
  simp [specialCharRegex, specialCharClass, test_single_atom, Atom.test, ClassItem.test]

/-- C4: `validatePasswordStrength` reports the first failing check in the order
length, letter case, digit, special character, and is valid only when none
fails; the five sample passwords give the five outcomes. -/
theorem validatePasswordStrength_spec (p : JSString) :
    validatePasswordStrength p =
        (if p.length < 8 then
          { isValid := false, message := js "Password must be at least 8 characters" }
        else if (¬ ∃ c ∈ p, 0x41 ≤ c ∧ c ≤ 0x5A) ∨ (¬ ∃ c ∈ p, 0x61 ≤ c ∧ c ≤ 0x7A) then
          { isValid := false
            message := js "Password must contain both uppercase and lowercase letters" }
        else if ¬ ∃ c ∈ p, 0x30 ≤ c ∧ c ≤ 0x39 then
          { isValid := false, message := js "Password must contain at least one number" }
        else if ¬ ∃ c ∈ p, c ∈ js "!@#$%^&*(),.?\":\x7b\x7d|<>" then
          { isValid := false
            message := js "Password must contain at least one special character" }
        else
          { isValid := true, message := js "Password is strong" }) ∧
      ((validatePasswordStrength p).isValid = true ↔
        8 ≤ p.length ∧ (∃ c ∈ p, 0x41 ≤ c ∧ c ≤ 0x5A) ∧ (∃ c ∈ p, 0x61 ≤ c ∧ c ≤ 0x7A) ∧
          (∃ c ∈ p, 0x30 ≤ c ∧ c ≤ 0x39) ∧ ∃ c ∈ p, c ∈ js "!@#$%^&*(),.?\":\x7b\x7d|<>") ∧
      validatePasswordStrength (js "abc") =
        { isValid := false, message := js "Password must be at least 8 characters" } ∧
      validatePasswordStrength (js "abcdefgh") =
        { isValid := false
          message := js "Password must contain both uppercase and lowercase letters" } ∧
      validatePasswordStrength (js "Abcdefgh") =
        { isValid := false, message := js "Password must contain at least one number" } ∧
      validatePasswordStrength (js "Abcdefg1") =
        { isValid := false
          message := js "Password must contain at least one special character" } ∧
      validatePasswordStrength (js "Abcdefg1!") =
        { isValid := true, message := js "Password is strong" } := by
  have hmsg : js "Password must be at least " ++ js (toString 8) ++ js " characters" =
      js "Password must be at least 8 characters" := by decide
  have hU := upperCase_test_iff p
  have hL := lowerCase_test_iff p
  have hN := numbers_test_iff p
  have hS := specialChar_test_iff p
  have main : validatePasswordStrength p =
        (if p.length < 8 then
          { isValid := false, message := js "Password must be at least 8 characters" }
        else if (¬ ∃ c ∈ p, 0x41 ≤ c ∧ c ≤ 0x5A) ∨ (¬ ∃ c ∈ p, 0x61 ≤ c ∧ c ≤ 0x7A) then
          { isValid := false
            message := js "Password must contain both uppercase and lowercase letters" }
        else if ¬ ∃ c ∈ p, 0x30 ≤ c ∧ c ≤ 0x39 then
          { isValid := false, message := js "Password must contain at least one number" }
        else if ¬ ∃ c ∈ p, c ∈ js "!@#$%^&*(),.?\":\x7b\x7d|<>" then
          { isValid := false
            message := js "Password must contain at least one special character" }
        else
          { isValid := true, message := js "Password is strong" }) := by
    unfold validatePasswordStrength
    simp only [hmsg]
    by_cases h8 : p.length < 8
    · simp only [h8, if_true]
    · simp only [h8, if_false]
      cases hu : upperCaseRegex.test p <;> cases hl : lowerCaseRegex.test p <;>
        cases hn : numbersRegex.test p <;> cases hs : specialCharRegex.test p <;>
        simp only [hu, hl, hn, hs, Bool.false_eq_true, false_iff, true_iff] at hU hL hN hS <;>
        simp [hU, hL, hN, hS]
  refine ⟨main, ?_, by decide, by decide, by decide, by decide, by decide⟩
  rw [main]
  split_ifs with h1 h2 h3 h4
  · constructor
    · intro h; cases h
    · rintro ⟨h, -⟩; omega
  · constructor
    · intro h; cases h
    · rintro ⟨-, hu, hl, -⟩
      rcases h2 with h2 | h2
      · exact absurd hu h2
      · exact absurd hl h2
  · constructor
    · intro _
      have h2' := not_or.1 h2
      exact ⟨by omega, not_not.1 h2'.1, not_not.1 h2'.2, h3, h4⟩
    · intro _; rfl
  · constructor
    · intro h; cases h
    · rintro ⟨-, -, -, -, hs⟩
      exact absurd hs h4
  · constructor
    · intro h; cases h
    · rintro ⟨-, -, -, hn, -⟩
      exact absurd hn h3

/-! ## Form submission -/

theorem isLoading_classListAdd (l : List JSString) (t : JSString) :
    isLoading { classList := classListAdd (js "loading") l, textContent := t } = true := by
  unfold isLoading classListAdd
  by_cases h : js "loading" ∈ l <;> simp [h]

theorem isLoading_classListRemove (l : List JSString) (t : JSString) :
    isLoading { classList := classListRemove (js "loading") l, textContent := t } = false := by
  unfold isLoading classListRemove
  simp [List.contains_iff_exists_mem_beq, List.mem_filter]

/-- C5: a submit with an empty email or an empty password leaves the button
and the pending timers as they were and shows `Please fill in all fields`. -/
theorem submitHandler_empty_field (e : DomEvent) (email password : JSString) (pg : Page)
    (h : email = [] ∨ password = []) :
    (submitHandler e email password pg).2.btn = pg.btn ∧
      (submitHandler e email password pg).2.timers = pg.timers ∧
      (submitHandler e email password pg).2.alerts =
        pg.alerts ++ [js "Please fill in all fields"] := by
  have hc : (email.isEmpty || password.isEmpty) = true := by
    rcases h with h | h <;> simp [h]
  simp [submitHandler, hc]

theorem submitHandler_empty_field_witness :
    (([] : JSString) = [] ∨ js "secret" = []) ∧
      (submitHandler { defaultPrevented := false } [] (js "secret") initialPage).2.btn =
        initialPage.btn ∧
      (submitHandler { defaultPrevented := false } [] (js "secret") initialPage).2.timers =
        initialPage.timers ∧
      (submitHandler { defaultPrevented := false } [] (js "secret") initialPage).2.alerts =
        initialPage.alerts ++ [js "Please fill in all fields"] :=
  ⟨Or.inl rfl, submitHandler_empty_field _ [] (js "secret") initialPage (Or.inl rfl)⟩

theorem submitHandler_cases (e : DomEvent) (email password : JSString) (pg : Page) :
    (submitHandler e email password pg).2 =
        (if email ≠ [] ∧ password ≠ [] ∧ isValidEmail email = true then
          { pg with
              btn := { classList := classListAdd (js "loading") pg.btn.classList
                       textContent := [] }
              timers := pg.timers ++ [{ delay := 2000, email := email, password := password }] }
        else
          { pg with
              alerts := pg.alerts ++
                [if email = [] ∨ password = [] then js "Please fill in all fields"
                 else js "Please enter a valid email address"] }) ∧
      ((isLoading (submitHandler e email password pg).2.btn = true ∧
          (submitHandler e email password pg).2.btn.textContent = [] ∧
          (submitHandler e email password pg).2.timers.length = pg.timers.length + 1) ↔
        email ≠ [] ∧ password ≠ [] ∧ isValidEmail email = true) := by
  have hempty : js "" = [] := by decide
  have main : (submitHandler e email password pg).2 =
        (if email ≠ [] ∧ password ≠ [] ∧ isValidEmail email = true then
          { pg with
              btn := { classList := classListAdd (js "loading") pg.btn.classList
                       textContent := [] }
              timers := pg.timers ++ [{ delay := 2000, email := email, password := password }] }
        else
          { pg with
              alerts := pg.alerts ++
                [if email = [] ∨ password = [] then js "Please fill in all fields"
                 else js "Please enter a valid email address"] }) := by
    unfold submitHandler
    by_cases h1 : email = []
    · simp [h1]
    · by_cases h2 : password = []
      · simp [h2]
      · cases hv : isValidEmail email <;> simp [h1, h2, hv, hempty]
  refine ⟨main, ?_⟩
  rw [main]
  by_cases h : email ≠ [] ∧ password ≠ [] ∧ isValidEmail email = true
  · rw [if_pos h]
    refine ⟨fun _ => h, fun _ => ⟨isLoading_classListAdd _ _, rfl, ?_⟩⟩
    simp
  · rw [if_neg h]
    refine ⟨?_, fun h' => absurd h' h⟩
    rintro ⟨-, -, h3⟩
    simp at h3

/-- C9: the submit handler schedules the delay and shows the loading state
exactly when both fields are non-empty and the email is valid; otherwise it
only appends one message, `Please fill in all fields` for an empty field and
`Please enter a valid email address` for a malformed email. -/
theorem submitHandler_spec (e : DomEvent) (email password : JSString) (pg : Page) :
    (submitHandler e email password pg).2 =
        (if email ≠ [] ∧ password ≠ [] ∧ isValidEmail email = true then
          { pg with
              btn := { classList := classListAdd (js "loading") pg.btn.classList
                       textContent := [] }
              timers := pg.timers ++ [{ delay := 2000, email := email, password := password }] }
        else
          { pg with
              alerts := pg.alerts ++
                [if email = [] ∨ password = [] then js "Please fill in all fields"
                 else js "Please enter a valid email address"] }) ∧
      ((isLoading (submitHandler e email password pg).2.btn = true ∧
          (submitHandler e email password pg).2.btn.textContent = [] ∧
          (submitHandler e email password pg).2.timers.length = pg.timers.length + 1) ↔
        email ≠ [] ∧ password ≠ [] ∧ isValidEmail email = true) :=
  submitHandler_cases e email password pg

/-! ## Submit-button state machine -/

theorem step_submit_valid (pg : Page) (email password : JSString)
    (h : email ≠ [] ∧ password ≠ [] ∧ isValidEmail email = true) :
    isLoading (step pg (.submit email password)).btn = true ∧
      (step pg (.submit email password)).timers.length = pg.timers.length + 1 := by
  have hs := (submitHandler_cases { defaultPrevented := false } email password pg).1
  simp only [step, hs, if_pos h]
  exact ⟨isLoading_classListAdd _ _, by simp⟩

theorem step_submit_rejected (pg : Page) (email password : JSString)
    (h : ¬ (email ≠ [] ∧ password ≠ [] ∧ isValidEmail email = true)) :
    (step pg (.submit email password)).btn = pg.btn ∧
      (step pg (.submit email password)).timers = pg.timers := by
  have hs := (submitHandler_cases { defaultPrevented := false } email password pg).1
  simp only [step, hs, if_neg h]
  exact ⟨trivial, trivial⟩

theorem step_timerFires (pg : Page) (i : Nat) (t : SubmitTimer) (h : pg.timers[i]? = some t) :
    isLoading (step pg (.timerFires i)).btn = false ∧
      (step pg (.timerFires i)).btn.textContent = js "Sign in" ∧
      (step pg (.timerFires i)).timers.length + 1 = pg.timers.length := by
  have hi : i < pg.timers.length := by
    rcases Nat.lt_or_ge i pg.timers.length with hlt | hge
    · exact hlt
    · rw [List.getElem?_eq_none hge] at h
      cases h
  simp only [step, h, submitTimeout]
  refine ⟨isLoading_classListRemove _ _, trivial, ?_⟩
  rw [List.length_eraseIdx]
  simp only [hi, if_true]
  omega

theorem step_preserves (pg : Page) (a : Action) (h : LoadingHasTimer pg) :
    LoadingHasTimer (step pg a) := by
  cases a with
  | submit email password =>
    by_cases hv : email ≠ [] ∧ password ≠ [] ∧ isValidEmail email = true
    · intro _
      rw [(step_submit_valid pg email password hv).2]
      omega
    · unfold LoadingHasTimer
      rw [(step_submit_rejected pg email password hv).1,
        (step_submit_rejected pg email password hv).2]
      exact h
  | timerFires i =>
    cases ht : pg.timers[i]? with
    | none =>
      have : step pg (.timerFires i) = pg := by simp [step, ht]
      rw [this]
      exact h
    | some t =>
      intro hl
      rw [(step_timerFires pg i t ht).1] at hl
      cases hl

theorem run_preserves (actions : List Action) :
    ∀ pg, LoadingHasTimer pg → LoadingHasTimer (run pg actions) := by
  induction actions with
  | nil => intro pg h; exact h
  | cons a actions ih =>
    intro pg h
    exact ih (step pg a) (step_preserves pg a h)

/-- C10: from an idle button, after any sequence of submits and timer expiries
a loading button has at least one pending timer, so with no timer left the
button is not loading. -/
theorem loading_has_pending_timer (pg0 : Page) (actions : List Action)
    (hidle : isLoading pg0.btn = false) :
    (isLoading (run pg0 actions).btn = true → 1 ≤ (run pg0 actions).timers.length) ∧
      ((run pg0 actions).timers = [] → isLoading (run pg0 actions).btn = false) := by
  have h0 : LoadingHasTimer pg0 := by
    intro hl
    rw [hidle] at hl
    cases hl
  have h := run_preserves actions pg0 h0
  refine ⟨h, fun hempty => ?_⟩
  cases hl : isLoading (run pg0 actions).btn with
  | false => rfl
  | true =>
    have := h hl
    rw [hempty] at this
    simp at this

theorem loading_has_pending_timer_witness :
    isLoading initialPage.btn = false ∧ initialPage.timers = [] ∧
      (isLoading (run initialPage
          [.submit (js "a@b.co") (js "pw"), .submit (js "c@d.io") (js "x"),
            .timerFires 0, .submit (js "e@f.org") (js "y")]).btn = true →
        1 ≤ (run initialPage
          [.submit (js "a@b.co") (js "pw"), .submit (js "c@d.io") (js "x"),
            .timerFires 0, .submit (js "e@f.org") (js "y")]).timers.length) ∧
      ((run initialPage
          [.submit (js "a@b.co") (js "pw"), .submit (js "c@d.io") (js "x"),
            .timerFires 0, .submit (js "e@f.org") (js "y")]).timers = [] →
        isLoading (run initialPage
          [.submit (js "a@b.co") (js "pw"), .submit (js "c@d.io") (js "x"),
            .timerFires 0, .submit (js "e@f.org") (js "y")]).btn = false) :=
  ⟨by decide, by decide,
    loading_has_pending_timer initialPage _ (by decide)⟩

/-! ## Remember me -/

theorem getItem_setItem (key value : JSString) (st : Storage) :
    getItem key (setItem key value st) = some value := by
  induction st with
  | nil => simp [setItem, getItem]
  | cons kv st ih =>
    obtain ⟨k, v⟩ := kv
    by_cases h : k = key
    · simp [setItem, getItem, h]
    · simp [setItem, getItem, h, ih]

theorem getItem_removeItem (key : JSString) (st : Storage) :
    getItem key (removeItem key st) = none := by
  induction st with
  | nil => rfl
  | cons kv st ih =>
    obtain ⟨k, v⟩ := kv
    by_cases h : k = key
    · simpa [removeItem, List.filter_cons, h] using ih
    · have ih' : getItem key (List.filter (fun kv => kv.1 != key) st) = none := ih
      simp [removeItem, List.filter_cons, h, getItem, ih']

theorem getItem_setItem_other (key value other : JSString) (st : Storage) (h : other ≠ key) :
    getItem other (setItem key value st) = getItem other st := by
  induction st with
  | nil => simp [setItem, getItem, Ne.symm h]
  | cons kv st ih =>
    obtain ⟨k, v⟩ := kv
    by_cases hk : k = key
    · subst hk
      simp [setItem, getItem, Ne.symm h]
    · by_cases ho : k = other
      · subst ho
        simp [setItem, getItem, h]
      · simp [setItem, getItem, hk, ho, ih]

theorem getItem_removeItem_other (key other : JSString) (st : Storage) (h : other ≠ key) :
    getItem other (removeItem key st) = getItem other st := by
  induction st with
  | nil => rfl
  | cons kv st ih =>
    obtain ⟨k, v⟩ := kv
    have ih' : getItem other (List.filter (fun kv => kv.1 != key) st) = getItem other st := ih
    by_cases hk : k = key
    · subst hk
      simp [removeItem, List.filter_cons, getItem, Ne.symm h, ih']
    · by_cases ho : k = other
      · subst ho
        simp [removeItem, List.filter_cons, getItem, h]
      · simp [removeItem, List.filter_cons, getItem, hk, ho, ih']

theorem rememberChange_getItem (st : RememberState) :
    getItem rememberedEmailKey (rememberChange st).storage =
      if st.checked = true ∧ st.emailValue ≠ [] then some st.emailValue else none := by
  unfold rememberChange
  by_cases hc : st.checked = true
  · by_cases he : st.emailValue = []
    · simp [hc, he, getItem_removeItem]
    · simp [hc, he, getItem_setItem]
  · simp [hc, getItem_removeItem]

theorem rememberChange_other_keys (st : RememberState) (other : JSString)
    (h : other ≠ rememberedEmailKey) :
    getItem other (rememberChange st).storage = getItem other st.storage := by
  unfold rememberChange
  split_ifs
  · exact getItem_setItem_other _ _ _ _ h
  · exact getItem_removeItem_other _ _ _ h

theorem rememberChange_storedOk (st : RememberState) : StoredOk (rememberChange st).storage := by
  unfold StoredOk
  rw [rememberChange_getItem]
  by_cases h : st.checked = true ∧ st.emailValue ≠ []
  · rw [if_pos h]
    exact Or.inr ⟨st.emailValue, rfl, h.2⟩
  · rw [if_neg h]
    exact Or.inl rfl

theorem runChanges_storedOk (events : List (Bool × JSString)) :
    ∀ st, StoredOk st.storage → StoredOk (runChanges st events).storage := by
  induction events with
  | nil => intro st h; exact h
  | cons ev events ih =>
    intro st _
    obtain ⟨checked, email⟩ := ev
    exact ih _ (rememberChange_storedOk _)

/-- C6: ticking the checkbox with a non-empty email and loading a fresh page
restores that email with the checkbox ticked; a change event with the checkbox
unticked followed by a fresh page load gives an empty field and an unticked
checkbox. -/
theorem remember_round_trip (storage : Storage) (e other : JSString) (he : e ≠ []) :
    loadRemembered (freshPage
        (rememberChange { storage := storage, emailValue := e, checked := true }).storage) =
      { storage := (rememberChange
          { storage := storage, emailValue := e, checked := true }).storage
        emailValue := e, checked := true } ∧
    loadRemembered (freshPage
        (rememberChange { storage := storage, emailValue := other, checked := false }).storage) =
      { storage := (rememberChange
          { storage := storage, emailValue := other, checked := false }).storage
        emailValue := [], checked := false } := by
  constructor
  · have h := rememberChange_getItem { storage := storage, emailValue := e, checked := true }
    simp only [he, ne_eq, not_false_eq_true, and_self, if_true] at h
    simp [loadRemembered, freshPage, h, he]
  · have h := rememberChange_getItem
      { storage := storage, emailValue := other, checked := false }
    simp only [Bool.false_eq_true, false_and, if_false] at h
    simp [loadRemembered, freshPage, h]

theorem remember_round_trip_witness :
    js "ann@example.com" ≠ [] ∧
    loadRemembered (freshPage
        (rememberChange { storage := [(js "rememberedEmail", js "old@example.com")]
                          emailValue := js "ann@example.com", checked := true }).storage) =
      { storage := (rememberChange
          { storage := [(js "rememberedEmail", js "old@example.com")]
            emailValue := js "ann@example.com", checked := true }).storage
        emailValue := js "ann@example.com", checked := true } ∧
    loadRemembered (freshPage
        (rememberChange { storage := [(js "rememberedEmail", js "old@example.com")]
                          emailValue := js "bob@example.com", checked := false }).storage) =
      { storage := (rememberChange
          { storage := [(js "rememberedEmail", js "old@example.com")]
            emailValue := js "bob@example.com", checked := false }).storage
        emailValue := [], checked := false } :=
  ⟨by decide, remember_round_trip _ _ _ (by decide)⟩

/-- C8: after the change handler the key `rememberedEmail` holds the email
field's value when the checkbox is ticked and the field is non-empty, and is
absent otherwise; the handler leaves the field and the checkbox alone; after
one or more change events the stored value is absent or non-empty, and so it is
after any number of them when the key starts absent. -/
theorem rememberChange_spec (st : RememberState) (ev : Bool × JSString)
    (events : List (Bool × JSString)) :
    getItem rememberedEmailKey (rememberChange st).storage =
        (if st.checked = true ∧ st.emailValue ≠ [] then some st.emailValue else none) ∧
      (rememberChange st).emailValue = st.emailValue ∧
      (rememberChange st).checked = st.checked ∧
      (getItem rememberedEmailKey (runChanges st (ev :: events)).storage = none ∨
        ∃ v, getItem rememberedEmailKey (runChanges st (ev :: events)).storage = some v ∧
          v ≠ []) ∧
      (getItem rememberedEmailKey
          (runChanges { st with storage := removeItem rememberedEmailKey st.storage }
            events).storage = none ∨
        ∃ v, getItem rememberedEmailKey
          (runChanges { st with storage := removeItem rememberedEmailKey st.storage }
            events).storage = some v ∧ v ≠ []) := by
  refine ⟨rememberChange_getItem st, ?_, ?_, ?_, ?_⟩
  · unfold rememberChange; split_ifs <;> rfl
  · unfold rememberChange; split_ifs <;> rfl
  · obtain ⟨checked, email⟩ := ev
    exact runChanges_storedOk events _ (rememberChange_storedOk _)
  · exact runChanges_storedOk events _ (Or.inl (getItem_removeItem _ _))

/-! ## Keyboard shortcut -/

/-- C7: on `Enter` with the `email` field focused the key-down handler cancels
the default action and gives focus to the `password` field; for any other key
or focused element it changes neither the event nor the focus. -/
theorem keydownHandler_spec (e : KeyEvent) (activeId : JSString) :
    keydownHandler e activeId =
      if e.key = js "Enter" ∧ activeId = js "email" then
        ({ key := e.key, defaultPrevented := true }, js "password")
      else (e, activeId) := by
  unfold keydownHandler
  by_cases h1 : e.key = js "Enter" <;> by_cases h2 : activeId = js "email" <;> simp [h1, h2]

end LoginPage
